import Mathlib

/-!
Verification of the QR signing-request decoder (src/src/utils/decoders.ts).

Strings from the source are modelled as `List Char`; `Uint8Array` values are
modelled as `List Nat` whose members are < 256.  JavaScript's `parseInt` with
radix 16 (as used by the source on pure hex-digit substrings) is modelled with
longest-valid-prefix semantics, `NaN` being `Option.none`.
-/

set_option maxRecDepth 100000

namespace Stylo

/-- Lowercase hex digit for a nibble, as produced by `Number.toString(16)` /
`u8aToHex` in the source. -/
def hexDigit (n : Nat) : Char :=
  if n < 10 then Char.ofNat (48 + n) else Char.ofNat (87 + n)

/-- Numeric value of a hex digit character; `none` when the character is not a
hex digit (JS `parseInt` stops consuming there). -/
def hexVal (c : Char) : Option Nat :=
  if '0' ≤ c ∧ c ≤ '9' then some (c.toNat - 48)
  else if 'a' ≤ c ∧ c ≤ 'f' then some (c.toNat - 87)
  else if 'A' ≤ c ∧ c ≤ 'F' then some (c.toNat - 55)
  else none

/-- Two lowercase hex characters for one byte, as `u8aToHex` renders each
`Uint8Array` entry. -/
def byteToHex (b : Nat) : List Char :=
  [hexDigit (b / 16), hexDigit (b % 16)]

/-- Hex rendering of a byte sequence: the source's `u8aToHex` with the `0x`
prefix removed by `hexStripPrefix`. -/
def bytesToHex : List Nat → List Char
  | [] => []
  | b :: bs => byteToHex b ++ bytesToHex bs

/-- Accumulating loop of JS `parseInt(s, 16)`: consumes hex digits until a
non-digit appears. -/
def parseHexLoop : List Char → Nat → Nat
  | [], acc => acc
  | c :: rest, acc =>
    match hexVal c with
    | some v => parseHexLoop rest (16 * acc + v)
    | none => acc

/-- JS `parseInt(s, 16)` on the strings the source feeds it (no sign and no
whitespace ever occur there): `none` models `NaN` (no leading digit). -/
def jsParseIntHex : List Char → Option Nat
  | [] => none
  | c :: rest =>
    match hexVal c with
    | some v => some (parseHexLoop rest v)
    | none => none

/-- Numeric value of a decimal digit character. -/
def decVal (c : Char) : Option Nat :=
  if '0' ≤ c ∧ c ≤ '9' then some (c.toNat - 48) else none

/-- Accumulating loop of JS `parseInt(s, 10)`. -/
def parseDecLoop : List Char → Nat → Nat
  | [], acc => acc
  | c :: rest, acc =>
    match decVal c with
    | some v => parseDecLoop rest (16 * acc + v)
    | none => acc

/-- JS `parseInt(s, 10)`; `none` models `NaN`. -/
def jsParseIntDec : List Char → Option Nat
  | [] => none
  | c :: rest =>
    match decVal c with
    | some v => some (parseDecLoop rest v)
    | none => none

/-- The byte-filling loop of `rawDataToU8A`: element `i` is
`parseInt(rawData.substr(i*2, 2), 16)` (a `NaN` stored into a `Uint8Array`
becomes 0). -/
def decodeHexPairs (s : List Char) : Nat → List Nat
  | 0 => []
  | n + 1 => (jsParseIntHex (s.take 2)).getD 0 :: decodeHexPairs (s.drop 2) n

/-- Pair-by-pair hex decoding used to model `@polkadot/util`'s `hexToU8a` on
the (always well-formed, even-length) hex strings the source passes it. -/
def hexPairsAll : List Char → List Nat
  | [] => []
  | [c] => [(jsParseIntHex [c]).getD 0]
  | a :: b :: rest => (jsParseIntHex [a, b]).getD 0 :: hexPairsAll rest

/-- Model of `hexToU8a`: empty input (a falsy string) gives no bytes, an
optional `0x` marker is removed, then consecutive pairs are decoded. -/
def hexToU8a (s : List Char) : List Nat :=
  if s = [] then []
  else if s.take 2 = ['0', 'x'] then hexPairsAll (s.drop 2)
  else hexPairsAll s

/-- JS `String.prototype.substr(start, length)` (ECMA-262 B.2.3.1): a negative
`start` counts from the end, a negative `length` is clamped to 0. -/
def jsSubstrNeg (s : List Char) (start len : Int) : List Char :=
  let size : Int := s.length
  let intStart : Int := if start < 0 then max (size + start) 0 else start
  let intLen : Int := min (max len 0) (max (size - intStart) 0)
  (s.drop intStart.toNat).take intLen.toNat

/-- JS `String.prototype.substr(start)` (one-argument form, to end of
string). -/
def jsSubstrTail (s : List Char) (start : Int) : List Char :=
  let size : Int := s.length
  let intStart : Int := if start < 0 then max (size + start) 0 else start
  s.drop intStart.toNat

/-- JS `>` between a possibly-NaN number and a literal: `NaN > n` is false. -/
def jsGtOpt (x : Option Nat) (n : Nat) : Bool :=
  match x with
  | none => false
  | some v => decide (n < v)

/-- The `while (rawData.substr(-4) === 'ec11')` loop of `rawDataToU8A`,
removing one trailing `ec11` group per iteration. -/
def stripEc11 (s : List Char) : List Char :=
  if h : ['e', 'c', '1', '1'] <:+ s then
    stripEc11 (s.take (s.length - 4))
  else s
termination_by s.length
decreasing_by
  have h4 : 4 ≤ s.length := h.length_le
  simp only [List.length_take]
  omega

/-- Length-prefix stage of `rawDataToU8A` (decoders.ts lines 59-80), applied
to the data left after removing the indicator and terminator: read 1-byte and
2-byte length candidates (`parseInt(...) || 0` turns `NaN` into 0), accept
whichever matches the remaining length exactly, and decode the hex pairs. -/
def rawLengthBody (r3 : List Char) : Option (List Nat) :=
  let length8 := (jsParseIntHex (r3.take 2)).getD 0
  let length16 := (jsParseIntHex (r3.take 4)).getD 0
  if length8 * 2 + 2 = r3.length then some (decodeHexPairs (r3.drop 2) length8)
  else if length16 * 2 + 4 = r3.length then some (decodeHexPairs (r3.drop 4) length16)
  else none

/-- Model of `rawDataToU8A` (decoders.ts lines 37-81): strip one trailing
`ec`, then every trailing `ec11`, check the leading indicator digit `4` and
trailing terminator digit `0`, remove them, auto-detect the 1-byte or 2-byte
length prefix by exact length match, and decode the hex pairs. -/
def rawDataToU8A (rawData : List Char) : Option (List Nat) :=
  if rawData = [] then none
  else
    let r1 := if ['e', 'c'] <:+ rawData then rawData.take (rawData.length - 2) else rawData
    let r2 := stripEc11 r1
    if r2.take 1 = ['4'] ∧ r2.drop (r2.length - 1) = ['0'] then
      rawLengthBody ((r2.drop 1).take (r2.length - 2))
    else none

/-- The string `'signData'`. -/
def signDataStr : List Char := "signData".toList

/-- The string `'signTransaction'`. -/
def signTxStr : List Char := "signTransaction".toList

/-- The string `'ed25519'`. -/
def ed25519Str : List Char := "ed25519".toList

/-- The string `'sr25519'`. -/
def sr25519Str : List Char := "sr25519".toList

/-- Value of `data.data.data` in a Substrate result: either a string (a hash
or the hex payload) or raw bytes (`rawPayload`), depending on the branch
taken. -/
inductive DataField where
  | str (s : List Char)
  | bytes (b : List Nat)
deriving DecidableEq

/-- The `EthereumParsedData` record filled by the `'45'` branch.  `action` is
nullable in the source; `rlp` / `dataField` hold the single character
`uosAfterFrames[13]` (`none` models JS `undefined`). -/
structure EthereumParsedData where
  action : Option (List Char)
  account : List Char
  rlp : Option Char
  dataField : Option Char
deriving DecidableEq

/-- The `SubstrateCompletedParsedData` record filled by the `'53'` branch.
Fields the code leaves unassigned on some paths are `Option`s (`none` models
JS `undefined`); `specVersion` is `none` when the parse produced `NaN`. -/
structure SubstrateParsedData where
  crypto : Option (List Char)
  specVersion : Option Nat
  genesisHash : List Char
  action : Option (List Char)
  oversized : Option Bool
  isHash : Option Bool
  rawPayload : Option (List Nat)
  dataField : Option DataField
  account : Option (List Char)
deriving DecidableEq

/-- The union returned by `constructDataFromBytes`: a multipart progress
record (`SubstrateMultiParsedData`), an Ethereum result, or a Substrate
result.  In the progress record, `currentFrame` and `frameCount` are `none`
when the corresponding `parseInt` produced `NaN`. -/
inductive ParsedData where
  | part (currentFrame frameCount : Option Nat) (isMultipart : Bool) (partData : List Char)
  | ethereum (e : EthereumParsedData)
  | substrate (s : SubstrateParsedData)
deriving DecidableEq

/-- The distinct failure outcomes of `constructDataFromBytes`, identified by
the message of the error finally thrown to the caller:
* `wrongRaw` — `strings.ERROR_WRONG_RAW`, thrown when `frameCount > 50`
  (the spec's MalformedFrame);
* `malformedAction` — the empty-message `Error` thrown when the Ethereum
  action byte is unrecognized (the spec's MalformedAction);
* `substrateUOS` — `'Something went wrong decoding the Substrate UOS
  payload'`, the single wrapper the inner `catch` re-throws for every failure
  inside the Substrate branch; with the external primitives total, the only
  such failure is the `networks.get(genesisHash)` miss, so for complete
  Substrate payloads this error is exactly the unknown-network failure
  (the spec's UnknownNetwork condition);
* `notFormatted` — `'Payload is not formated correctly'`, thrown on an
  unknown discriminator byte (the spec's UnrecognizedPayloadType). -/
inductive DecodeError where
  | wrongRaw
  | malformedAction
  | substrateUOS
  | notFormatted
deriving DecidableEq

/-- Offset component of `@polkadot/util`'s `compactFromU8a` (an external
dependency): 1, 2, 4, or `1 + (b₀ >> 2) + 4` bytes according to the SCALE
compact mode bits; an empty array reads `undefined`, whose `& 0b11` is 0. -/
def compactOffset (bs : List Nat) : Nat :=
  match bs with
  | [] => 1
  | b :: _ =>
    match b % 4 with
    | 0 => 1
    | 1 => 2
    | 2 => 4
    | _ => 1 + (b / 4 + 4)

/-- The Ethereum arm of the `switch` (decoders.ts lines 133-159), applied to
the hex string `uosAfterFrames`.  The nested ternary is kept as written in
the source, including its unreachable `'signTransaction'` branch. -/
def ethDecode (uos : List Char) : Except DecodeError ParsedData :=
  let firstByte := (uos.drop 2).take 2
  let action : Option (List Char) :=
    if firstByte = ['0', '0'] ∨ firstByte = ['0', '1'] then some signDataStr
    else if firstByte = ['0', '1'] then some signTxStr
    else none
  let address := (uos.drop 4).take 44
  if action = some signDataStr then
    .ok (.ethereum { action := action, account := address, rlp := uos.get? 13, dataField := none })
  else if action = some signTxStr then
    .ok (.ethereum { action := action, account := address, rlp := none, dataField := uos.get? 13 })
  else .error .malformedAction

/-- The Substrate arm of the `switch` (decoders.ts lines 161-226), applied to
`uosAfterFrames`.  `hash` models the external `blake2b` primitive and
`encAddr` the external `encodeAddress` primitive; `networks` maps a
`0x`-prefixed genesis-hash string to the network's address-format number
(the only field of `SubstrateNetworkParams` the source reads).  Every throw
inside the inner `try` is caught and re-thrown as the single generic
Substrate error, modelled by `DecodeError.substrateUOS`. -/
def substrateDecode (hash : List Char → List Char) (encAddr : List Nat → Nat → List Char)
    (networks : List (List Char × Nat)) (uos : List Char) : Except DecodeError ParsedData :=
  let firstByte := (uos.drop 2).take 2
  let secondByte := (uos.drop 4).take 2
  let crypto : Option (List Char) :=
    if firstByte = ['0', '0'] then some ed25519Str
    else if firstByte = ['0', '1'] then some sr25519Str
    else none
  let pubKeyHex := (uos.drop 6).take 64
  let publicKeyAsBytes := hexToU8a ('0' :: 'x' :: pubKeyHex)
  let hexEncodedData := '0' :: 'x' :: uos.drop 70
  let hexPayload := hexEncodedData.take (hexEncodedData.length - 64)
  let specVersion := jsParseIntDec (jsSubstrNeg hexEncodedData (-70) (-64))
  let genesisHash := '0' :: 'x' :: jsSubstrTail hexEncodedData (-64)
  let rawPayload := hexToU8a hexPayload
  let isOversized : Bool := decide (256 < rawPayload.length)
  match List.lookup genesisHash networks with
  | none => .error .substrateUOS
  | some netNum =>
    if secondByte = ['0', '0'] ∨ secondByte = ['0', '2'] then
      let offset := compactOffset rawPayload
      let payload := rawPayload.drop offset
      .ok (.substrate {
        crypto := crypto, specVersion := specVersion, genesisHash := genesisHash,
        action := some signTxStr,
        oversized := some isOversized,
        isHash := some isOversized,
        rawPayload := some rawPayload,
        dataField := some (if isOversized then .str (hash (bytesToHex payload)) else .bytes rawPayload),
        account := some (encAddr publicKeyAsBytes netNum) })
    else if secondByte = ['0', '1'] ∨ secondByte = ['0', '3'] then
      .ok (.substrate {
        crypto := crypto, specVersion := specVersion, genesisHash := genesisHash,
        action := some signDataStr,
        oversized := some false,
        isHash := some (if secondByte = ['0', '1'] then true else false),
        rawPayload := none,
        dataField := some (.str hexPayload),
        account := some (encAddr publicKeyAsBytes netNum) })
    else
      .ok (.substrate {
        crypto := crypto, specVersion := specVersion, genesisHash := genesisHash,
        action := none, oversized := none, isHash := none,
        rawPayload := none, dataField := none, account := none })

/-- The `switch (zerothByte)` dispatch (decoders.ts lines 132-230): `'45'`
routes to the Ethereum decoder, `'53'` to the Substrate decoder, anything
else throws `'Payload is not formated correctly'`. -/
def dispatchUOS (hash : List Char → List Char) (encAddr : List Nat → Nat → List Char)
    (networks : List (List Char × Nat)) (uos : List Char) : Except DecodeError ParsedData :=
  let zerothByte := uos.take 2
  if zerothByte = ['4', '5'] then ethDecode uos
  else if zerothByte = ['5', '3'] then substrateDecode hash encAddr networks uos
  else .error .notFormatted

/-- Model of `constructDataFromBytes` (decoders.ts lines 103-239).  The frame
header is read from the hex rendering of the first five bytes; `frameCount`
and `currentFrame` are `Option Nat` because `parseInt` yields `NaN` on a
short header.  A `frameCount` above 50 throws `ERROR_WRONG_RAW` before
anything else; a multi-frame payload with `multipartComplete = false` returns
the progress record; otherwise the bytes after the header are dispatched on
their first byte. -/
def constructDataFromBytes (hash : List Char → List Char) (encAddr : List Nat → Nat → List Char)
    (bytes : List Nat) (multipartComplete : Bool) (networks : List (List Char × Nat)) :
    Except DecodeError ParsedData :=
  let frameInfo := bytesToHex (bytes.take 5)
  let frameCount := jsParseIntHex ((frameInfo.drop 2).take 4)
  let isMultipart := jsGtOpt frameCount 1
  if jsGtOpt frameCount 50 then .error .wrongRaw
  else
    let currentFrame := jsParseIntHex ((frameInfo.drop 6).take 4)
    let uos := bytesToHex (bytes.drop 5)
    if isMultipart && !multipartComplete then
      .ok (.part currentFrame frameCount isMultipart uos)
    else dispatchUOS hash encAddr networks uos

/-- Frame layout used to state claims about `constructDataFromBytes`: one
reserved byte, big-endian 2-byte `frameCount`, big-endian 2-byte
`currentFrame`, then the payload body. -/
def mkFrame (f0 fc cf : Nat) (body : List Nat) : List Nat :=
  f0 :: (fc / 256) :: (fc % 256) :: (cf / 256) :: (cf % 256) :: body

/-- Trivial stand-in for the external `blake2b` primitive, used to
instantiate concrete-input theorems (no claim depends on hash values). -/
def noHash : List Char → List Char := fun _ => []

/-- Trivial stand-in for the external `encodeAddress` primitive, used to
instantiate concrete-input theorems (no claim depends on address values). -/
def noEncode : List Nat → Nat → List Char := fun _ _ => []

/-- Projection: the `oversized` flag of a successful Substrate decode. -/
def resultOversized : Except DecodeError ParsedData → Option (Option Bool)
  | .ok (.substrate d) => some d.oversized
  | _ => none

/-- Projection: the `specVersion` field of a successful Substrate decode. -/
def resultSpecVersion : Except DecodeError ParsedData → Option (Option Nat)
  | .ok (.substrate d) => some d.specVersion
  | _ => none

/-- Projection: the `data.data.data` field of a successful Substrate
decode. -/
def resultDataField : Except DecodeError ParsedData → Option (Option DataField)
  | .ok (.substrate d) => some d.dataField
  | _ => none

/-! ### Arithmetic and parsing lemmas -/

theorem hexVal_hexDigit : ∀ n, n < 16 → hexVal (hexDigit n) = some n := by decide

theorem hexDigit_inj : ∀ m, m < 16 → ∀ n, n < 16 → hexDigit m = hexDigit n → m = n := by decide

theorem byteToHex_inj {a b : Nat} (ha : a < 256) (hb : b < 256)
    (h : byteToHex a = byteToHex b) : a = b := by
  simp only [byteToHex, List.cons.injEq, and_true] at h
  have h1 := hexDigit_inj (a / 16) (by omega) (b / 16) (by omega) h.1
  have h2 := hexDigit_inj (a % 16) (by omega) (b % 16) (by omega) h.2
  omega

theorem bytesToHex_cons (b : Nat) (bs : List Nat) :
    bytesToHex (b :: bs) = hexDigit (b / 16) :: hexDigit (b % 16) :: bytesToHex bs := rfl

theorem bytesToHex_append (a b : List Nat) :
    bytesToHex (a ++ b) = bytesToHex a ++ bytesToHex b := by
  induction a with
  | nil => rfl
  | cons x xs ih => simp [bytesToHex_cons, ih]

theorem bytesToHex_length (bs : List Nat) : (bytesToHex bs).length = 2 * bs.length := by
  induction bs with
  | nil => rfl
  | cons x xs ih => simp [bytesToHex_cons, ih]; omega

theorem parse2 {x : Nat} (hx : x < 256) :
    jsParseIntHex (byteToHex x) = some x := by
  have h1 : x / 16 < 16 := by omega
  have h2 : x % 16 < 16 := by omega
  simp only [byteToHex, jsParseIntHex, hexVal_hexDigit _ h1, parseHexLoop,
    hexVal_hexDigit _ h2, Option.some.injEq]
  omega

theorem parse4 {x y : Nat} (hx : x < 256) (hy : y < 256) :
    jsParseIntHex (byteToHex x ++ byteToHex y) = some (256 * x + y) := by
  have h1 : x / 16 < 16 := by omega
  have h2 : x % 16 < 16 := by omega
  have h3 : y / 16 < 16 := by omega
  have h4 : y % 16 < 16 := by omega
  simp only [byteToHex, List.cons_append, List.nil_append, jsParseIntHex,
    hexVal_hexDigit _ h1, parseHexLoop, hexVal_hexDigit _ h2, hexVal_hexDigit _ h3,
    hexVal_hexDigit _ h4, Option.some.injEq]
  omega

theorem decodeHexPairs_bytesToHex (bs : List Nat) (h : ∀ x ∈ bs, x < 256) :
    decodeHexPairs (bytesToHex bs) bs.length = bs := by
  induction bs with
  | nil => rfl
  | cons b rest ih =>
    have hb : b < 256 := h b (List.mem_cons_self b rest)
    simp only [bytesToHex_cons, List.length_cons, decodeHexPairs, List.take, List.drop]
    have hp := parse2 hb
    simp only [byteToHex] at hp
    simp [hp, ih (fun x hx => h x (List.mem_cons_of_mem b hx))]

theorem hexPairsAll_bytesToHex (bs : List Nat) (h : ∀ x ∈ bs, x < 256) :
    hexPairsAll (bytesToHex bs) = bs := by
  induction bs with
  | nil => rfl
  | cons b rest ih =>
    have hb : b < 256 := h b (List.mem_cons_self b rest)
    simp only [bytesToHex_cons, hexPairsAll]
    have hp := parse2 hb
    simp only [byteToHex] at hp
    simp [hp, ih (fun x hx => h x (List.mem_cons_of_mem b hx))]

theorem hexToU8a_bytesToHex (bs : List Nat) (h : ∀ x ∈ bs, x < 256) :
    hexToU8a ('0' :: 'x' :: bytesToHex bs) = bs := by
  simp [hexToU8a, List.take, hexPairsAll_bytesToHex bs h]

/-! ### Spec-side frame encodings (for the round-trip claim C1) -/

/-- Concatenation of `n` copies of the four-character filler-repeat marker
`ec11`. -/
def ec11Rep : Nat → List Char
  | 0 => []
  | n + 1 => ec11Rep n ++ ['e', 'c', '1', '1']

/-- A well-formed optional filler suffix described by the spec: any number of
`ec11` groups, optionally closed by a final `ec`. -/
def specFiller (n : Nat) (e : Bool) : List Char :=
  ec11Rep n ++ (if e then ['e', 'c'] else [])

/-- Frame encoding of a byte sequence with a 1-byte length prefix, from the
claim's words: indicator `4`, length byte, hex pairs, terminator `0`. -/
def specEncode1 (b : List Nat) : List Char :=
  '4' :: (byteToHex b.length ++ bytesToHex b ++ ['0'])

/-- Frame encoding of a byte sequence with a 2-byte big-endian length prefix,
from the claim's words. -/
def specEncode2 (b : List Nat) : List Char :=
  '4' :: (byteToHex (b.length / 256) ++ byteToHex (b.length % 256) ++ bytesToHex b ++ ['0'])

/-! ### Filler-stripping lemmas -/

theorem not_ec_suffix {s : List Char}
    (h : s.getLast? = some '0' ∨ s.getLast? = some '1') : ¬ (['e', 'c'] <:+ s) := by
  rintro ⟨t, rfl⟩
  have hc : (t ++ ['e', 'c']).getLast? = some 'c' := by
    have : t ++ ['e', 'c'] = (t ++ ['e']) ++ ['c'] := by simp
    rw [this, List.getLast?_concat]
  rcases h with h | h <;> simp [hc] at h

theorem not_ec11_suffix {s : List Char}
    (h : s.getLast? = some '0') : ¬ (['e', 'c', '1', '1'] <:+ s) := by
  rintro ⟨t, rfl⟩
  have hc : (t ++ ['e', 'c', '1', '1']).getLast? = some '1' := by
    have : t ++ ['e', 'c', '1', '1'] = (t ++ ['e', 'c', '1']) ++ ['1'] := by simp
    rw [this, List.getLast?_concat]
  simp [hc] at h

theorem stripEc11_of_not {s : List Char} (h : ¬ (['e', 'c', '1', '1'] <:+ s)) :
    stripEc11 s = s := by
  rw [stripEc11]
  simp [h]

theorem stripEc11_append (s : List Char) :
    stripEc11 (s ++ ['e', 'c', '1', '1']) = stripEc11 s := by
  rw [stripEc11]
  have hs : ['e', 'c', '1', '1'] <:+ s ++ ['e', 'c', '1', '1'] := List.suffix_append s _
  have hlen : (s ++ ['e', 'c', '1', '1']).length - 4 = s.length := by simp
  rw [dif_pos hs, hlen, List.take_left]

theorem stripEc11_rep {core : List Char} (h0 : core.getLast? = some '0') (n : Nat) :
    stripEc11 (core ++ ec11Rep n) = core := by
  induction n with
  | zero => simpa [ec11Rep] using stripEc11_of_not (not_ec11_suffix h0)
  | succ m ih =>
    have : core ++ ec11Rep (m + 1) = (core ++ ec11Rep m) ++ ['e', 'c', '1', '1'] := by
      simp [ec11Rep]
    rw [this, stripEc11_append, ih]

theorem getLast?_rep {core : List Char} (h0 : core.getLast? = some '0') (n : Nat) :
    (core ++ ec11Rep n).getLast? = some '0' ∨ (core ++ ec11Rep n).getLast? = some '1' := by
  cases n with
  | zero => left; simpa [ec11Rep]
  | succ m =>
    right
    have : core ++ ec11Rep (m + 1) = (core ++ ec11Rep m ++ ['e', 'c', '1']) ++ ['1'] := by
      simp [ec11Rep]
    rw [this, List.getLast?_concat]

/-- After the `ec`-strip and the `ec11`-loop, a terminated core followed by
any well-formed filler is reduced exactly to the core. -/
theorem strip_filler {core : List Char} (h0 : core.getLast? = some '0') (n : Nat) (e : Bool) :
    stripEc11 (if ['e', 'c'] <:+ core ++ specFiller n e then
        (core ++ specFiller n e).take ((core ++ specFiller n e).length - 2)
      else core ++ specFiller n e) = core := by
  cases e with
  | true =>
    have hsfx : ['e', 'c'] <:+ core ++ specFiller n true := by
      have : core ++ specFiller n true = (core ++ ec11Rep n) ++ ['e', 'c'] := by
        simp [specFiller]
      rw [this]; exact List.suffix_append _ _
    have harr : core ++ specFiller n true = (core ++ ec11Rep n) ++ ['e', 'c'] := by
      simp [specFiller]
    rw [if_pos hsfx, harr]
    have hlen : ((core ++ ec11Rep n) ++ ['e', 'c']).length - 2 = (core ++ ec11Rep n).length := by
      simp; omega
    rw [hlen, List.take_left, stripEc11_rep h0]
  | false =>
    have harr : core ++ specFiller n false = core ++ ec11Rep n := by simp [specFiller]
    have hnsfx : ¬ (['e', 'c'] <:+ core ++ specFiller n false) := by
      rw [harr]; exact not_ec_suffix (getLast?_rep h0 n)
    rw [if_neg hnsfx, harr, stripEc11_rep h0]

theorem rawDataToU8A_encode (mid : List Char) (n : Nat) (e : Bool) :
    rawDataToU8A (('4' :: mid ++ ['0']) ++ specFiller n e) = rawLengthBody mid := by
  have hcat : ('4' :: mid ++ ['0']) = ('4' :: mid) ++ ['0'] := by simp
  have h0 : ('4' :: mid ++ ['0']).getLast? = some '0' := by rw [hcat, List.getLast?_concat]
  have hstrip := strip_filler h0 n e
  have hlen : ('4' :: mid ++ ['0']).length = mid.length + 2 := by simp
  have ht1 : ('4' :: mid ++ ['0']).take 1 = ['4'] := by simp
  have ht2 : ('4' :: mid ++ ['0']).drop (('4' :: mid ++ ['0']).length - 1) = ['0'] := by
    rw [hlen]
    show (mid ++ ['0']).drop (mid.length + 2 - 1 - 1) = ['0']
    have : mid.length + 2 - 1 - 1 = mid.length := by omega
    rw [this]
    exact List.drop_left mid ['0']
  have ht3 : (('4' :: mid ++ ['0']).drop 1).take (('4' :: mid ++ ['0']).length - 2) = mid := by
    rw [hlen]
    show (mid ++ ['0']).take (mid.length + 2 - 2) = mid
    have : mid.length + 2 - 2 = mid.length := by omega
    rw [this]
    exact List.take_left mid ['0']
  simp only [rawDataToU8A]
  rw [if_neg (by simp : ¬(('4' :: mid ++ ['0']) ++ specFiller n e = []))]
  rw [hstrip, if_pos ⟨ht1, ht2⟩, ht3]

theorem rawLengthBody_one (b : List Nat) (hb : ∀ x ∈ b, x < 256) (hlen : b.length ≤ 255) :
    rawLengthBody (byteToHex b.length ++ bytesToHex b) = some b := by
  have hL : b.length < 256 := by omega
  have htake : (byteToHex b.length ++ bytesToHex b).take 2 = byteToHex b.length := by
    simp [byteToHex, List.take]
  have hmlen : (byteToHex b.length ++ bytesToHex b).length = 2 + 2 * b.length := by
    simp [byteToHex, bytesToHex_length]; omega
  simp only [rawLengthBody, htake, parse2 hL, Option.getD_some]
  rw [if_pos (by omega : b.length * 2 + 2 = (byteToHex b.length ++ bytesToHex b).length)]
  have hdrop : (byteToHex b.length ++ bytesToHex b).drop 2 = bytesToHex b := by
    simp [byteToHex, List.drop]
  rw [hdrop, decodeHexPairs_bytesToHex b hb]

theorem rawLengthBody_two (b : List Nat) (hb : ∀ x ∈ b, x < 256) (hlen : b.length ≤ 65535) :
    rawLengthBody (byteToHex (b.length / 256) ++ byteToHex (b.length % 256) ++ bytesToHex b)
      = some b := by
  have hhi : b.length / 256 < 256 := by omega
  have hlo : b.length % 256 < 256 := by omega
  set mid := byteToHex (b.length / 256) ++ byteToHex (b.length % 256) ++ bytesToHex b with hmid
  have htake2 : mid.take 2 = byteToHex (b.length / 256) := by
    simp [hmid, byteToHex, List.take]
  have htake4 : mid.take 4 = byteToHex (b.length / 256) ++ byteToHex (b.length % 256) := by
    simp [hmid, byteToHex, List.take]
  have hmlen : mid.length = 4 + 2 * b.length := by
    simp [hmid, byteToHex, bytesToHex_length]; omega
  have hdivle : b.length / 256 ≤ b.length := Nat.div_le_self _ _
  simp only [rawLengthBody, htake2, htake4, parse2 hhi, parse4 hhi hlo, Option.getD_some]
  rw [if_neg (by omega : ¬(b.length / 256 * 2 + 2 = mid.length))]
  have hval : 256 * (b.length / 256) + b.length % 256 = b.length := by omega
  rw [hval]
  rw [if_pos (by omega : b.length * 2 + 4 = mid.length)]
  have hdrop : mid.drop 4 = bytesToHex b := by
    simp [hmid, byteToHex, List.drop]
  rw [hdrop, decodeHexPairs_bytesToHex b hb]

/-- C1: for every byte sequence `b` and every well-formed frame encoding of
`b` — indicator digit `4`, a 1-byte or 2-byte big-endian length prefix whose
value is `b`'s byte count, `b`'s bytes as hex pairs, terminator digit `0`,
followed by optional `ec`/`ec11` filler markers — `rawDataToU8A` applied to
the encoded hex string returns exactly `b`. -/
theorem c1_roundTrip (b : List Nat) (n : Nat) (e : Bool) (hb : ∀ x ∈ b, x < 256) :
    (b.length ≤ 255 → rawDataToU8A (specEncode1 b ++ specFiller n e) = some b) ∧
    (b.length ≤ 65535 → rawDataToU8A (specEncode2 b ++ specFiller n e) = some b) := by
  constructor
  · intro hlen
    have harr : specEncode1 b
        = '4' :: (byteToHex b.length ++ bytesToHex b) ++ ['0'] := by
      simp [specEncode1]
    rw [harr, rawDataToU8A_encode, rawLengthBody_one b hb hlen]
  · intro hlen
    have harr : specEncode2 b
        = '4' :: (byteToHex (b.length / 256) ++ byteToHex (b.length % 256) ++ bytesToHex b)
            ++ ['0'] := by
      simp [specEncode2]
    rw [harr, rawDataToU8A_encode, rawLengthBody_two b hb hlen]

/-- Witness for C1 at the concrete bytes `[0xde, 0xad]` with filler
`ec11ec`. -/
theorem c1_roundTrip_witness :
    rawDataToU8A (specEncode1 [222, 173] ++ specFiller 1 true) = some [222, 173] ∧
    rawDataToU8A (specEncode2 [222, 173] ++ specFiller 1 true) = some [222, 173] :=
  ⟨(c1_roundTrip [222, 173] 1 true (by decide)).1 (by decide),
   (c1_roundTrip [222, 173] 1 true (by decide)).2 (by decide)⟩

/-! ### Frame-header evaluation lemmas for `constructDataFromBytes` -/

theorem mkFrame_take5 (f0 fc cf : Nat) (body : List Nat) :
    (mkFrame f0 fc cf body).take 5 = [f0, fc / 256, fc % 256, cf / 256, cf % 256] := by
  simp [mkFrame, List.take]

theorem mkFrame_drop5 (f0 fc cf : Nat) (body : List Nat) :
    (mkFrame f0 fc cf body).drop 5 = body := by
  simp [mkFrame, List.drop]

theorem frame_parse_fc (f0 fc cf : Nat) (body : List Nat) (hfc : fc < 65536) :
    jsParseIntHex (((bytesToHex ((mkFrame f0 fc cf body).take 5)).drop 2).take 4) = some fc := by
  rw [mkFrame_take5]
  have hsl : ((bytesToHex [f0, fc / 256, fc % 256, cf / 256, cf % 256]).drop 2).take 4
      = byteToHex (fc / 256) ++ byteToHex (fc % 256) := by
    simp [bytesToHex_cons, bytesToHex, byteToHex, List.drop, List.take]
  rw [hsl, parse4 (by omega) (by omega)]
  congr 1
  omega

theorem frame_parse_cf (f0 fc cf : Nat) (body : List Nat) (hcf : cf < 65536) :
    jsParseIntHex (((bytesToHex ((mkFrame f0 fc cf body).take 5)).drop 6).take 4) = some cf := by
  rw [mkFrame_take5]
  have hsl : ((bytesToHex [f0, fc / 256, fc % 256, cf / 256, cf % 256]).drop 6).take 4
      = byteToHex (cf / 256) ++ byteToHex (cf % 256) := by
    simp [bytesToHex_cons, bytesToHex, byteToHex, List.drop, List.take]
  rw [hsl, parse4 (by omega) (by omega)]
  congr 1
  omega

theorem construct_wrongRaw (hash : List Char → List Char) (encA : List Nat → Nat → List Char)
    (networks : List (List Char × Nat)) (f0 fc cf : Nat) (body : List Nat) (mc : Bool)
    (hfc : fc < 65536) (h : 50 < fc) :
    constructDataFromBytes hash encA (mkFrame f0 fc cf body) mc networks = .error .wrongRaw := by
  simp only [constructDataFromBytes, frame_parse_fc f0 fc cf body hfc, jsGtOpt]
  simp [h]

theorem construct_part (hash : List Char → List Char) (encA : List Nat → Nat → List Char)
    (networks : List (List Char × Nat)) (f0 fc cf : Nat) (body : List Nat)
    (hfc : fc < 65536) (hcf : cf < 65536) (h50 : fc ≤ 50) (h1 : 1 < fc) :
    constructDataFromBytes hash encA (mkFrame f0 fc cf body) false networks
      = .ok (.part (some cf) (some fc) true (bytesToHex body)) := by
  simp only [constructDataFromBytes, frame_parse_fc f0 fc cf body hfc,
    frame_parse_cf f0 fc cf body hcf, mkFrame_drop5, jsGtOpt]
  simp [show ¬(50 < fc) by omega, h1]

theorem construct_dispatch (hash : List Char → List Char) (encA : List Nat → Nat → List Char)
    (networks : List (List Char × Nat)) (f0 fc cf : Nat) (body : List Nat) (mc : Bool)
    (hfc : fc < 65536) (h50 : fc ≤ 50) (hmp : fc ≤ 1 ∨ mc = true) :
    constructDataFromBytes hash encA (mkFrame f0 fc cf body) mc networks
      = dispatchUOS hash encA networks (bytesToHex body) := by
  simp only [constructDataFromBytes, frame_parse_fc f0 fc cf body hfc, mkFrame_drop5, jsGtOpt]
  rcases hmp with h1 | hmc
  · simp [show ¬(50 < fc) by omega, show ¬(1 < fc) by omega]
  · simp [show ¬(50 < fc) by omega, hmc]

/-- Once the decode reaches the payload dispatch, the result is never the
multipart progress record: that record is only built in the
`isMultipart && !multipartComplete` branch. -/
theorem dispatchUOS_ne_part (hash : List Char → List Char) (encA : List Nat → Nat → List Char)
    (networks : List (List Char × Nat)) (uos : List Char) (a b : Option Nat) (c : Bool)
    (d : List Char) :
    dispatchUOS hash encA networks uos ≠ .ok (.part a b c d) := by
  intro hc
  simp only [dispatchUOS, ethDecode, substrateDecode] at hc
  repeat' split at hc
  all_goals simp_all

/-- C4: a frame header declaring `frameCount > 50` makes
`constructDataFromBytes` fail with the MalformedFrame error
(`ERROR_WRONG_RAW`), regardless of the remaining payload content and of the
`multipartComplete` flag. -/
theorem c4_frameCeiling (hash : List Char → List Char) (encA : List Nat → Nat → List Char)
    (networks : List (List Char × Nat)) (f0 fc cf : Nat) (body : List Nat) (mc : Bool)
    (hfc : fc < 65536) (h : 50 < fc) :
    constructDataFromBytes hash encA (mkFrame f0 fc cf body) mc networks = .error .wrongRaw :=
  construct_wrongRaw hash encA networks f0 fc cf body mc hfc h

/-- Witness for C4: `frameCount = 51` with a nonsense body and
`multipartComplete = true` still fails with the MalformedFrame error. -/
theorem c4_frameCeiling_witness :
    constructDataFromBytes noHash noEncode (mkFrame 0 51 9 [1, 2, 3]) true []
      = .error .wrongRaw :=
  c4_frameCeiling noHash noEncode [] 0 51 9 [1, 2, 3] true (by decide) (by decide)

/-- C10: with `1 < frameCount ≤ 50` and `multipartComplete = false`,
`constructDataFromBytes` returns a PartialAssembly without inspecting the
payload body: the body and the networks table are arbitrary, and no error of
any kind can arise. -/
theorem c10_partialBeforeBody (hash : List Char → List Char) (encA : List Nat → Nat → List Char)
    (networks : List (List Char × Nat)) (f0 fc cf : Nat) (body : List Nat)
    (hfc : fc < 65536) (hcf : cf < 65536) (h1 : 1 < fc) (h50 : fc ≤ 50) :
    constructDataFromBytes hash encA (mkFrame f0 fc cf body) false networks
      = .ok (.part (some cf) (some fc) true (bytesToHex body)) :=
  construct_part hash encA networks f0 fc cf body hfc hcf h50 h1

/-- Witness for C10: a two-frame header over a body whose first byte `0x99`
is no known discriminator, with an empty networks table, still yields the
progress record rather than any error. -/
theorem c10_partialBeforeBody_witness :
    constructDataFromBytes noHash noEncode (mkFrame 0 2 1 [153, 0]) false []
      = .ok (.part (some 1) (some 2) true (bytesToHex [153, 0])) :=
  c10_partialBeforeBody noHash noEncode [] 0 2 1 [153, 0] (by decide) (by decide)
    (by decide) (by decide)

/-- Counterexample to C5 as stated: the input below has `frameCount = 51 > 1`
and `multipartComplete = false`, so the claimed equivalence demands a
PartialAssembly, yet the decode fails with the MalformedFrame error because
the ceiling check precedes the multipart check. -/
theorem c5_partialIff_counterexample :
    constructDataFromBytes noHash noEncode (mkFrame 0 51 0 [7]) false [] = .error .wrongRaw :=
  construct_wrongRaw noHash noEncode [] 0 51 0 [7] false (by decide) (by decide)

/-- C5 (amended): `constructDataFromBytes` returns a PartialAssembly if and
only if the header's `frameCount` is greater than 1, **at most 50**, and
`multipartComplete` is false; a payload with `frameCount ≤ 1` never yields a
PartialAssembly, and the PartialAssembly returned carries exactly the
`currentFrameIndex` and `frameCount` big-endian encoded in header bytes 1-2
(`frameCount`) and 3-4 (`currentFrameIndex`). -/
theorem c5_partialIff_amended (hash : List Char → List Char) (encA : List Nat → Nat → List Char)
    (networks : List (List Char × Nat)) (f0 fc cf : Nat) (body : List Nat) (mc : Bool)
    (hfc : fc < 65536) (hcf : cf < 65536) :
    ((∃ a b c d, constructDataFromBytes hash encA (mkFrame f0 fc cf body) mc networks
        = .ok (.part a b c d)) ↔ (1 < fc ∧ fc ≤ 50 ∧ mc = false)) ∧
    (1 < fc → fc ≤ 50 → mc = false →
      constructDataFromBytes hash encA (mkFrame f0 fc cf body) mc networks
        = .ok (.part (some cf) (some fc) true (bytesToHex body))) := by
  have hcarry : 1 < fc → fc ≤ 50 → mc = false →
      constructDataFromBytes hash encA (mkFrame f0 fc cf body) mc networks
        = .ok (.part (some cf) (some fc) true (bytesToHex body)) := by
    intro h1 h50 hmc
    subst hmc
    exact construct_part hash encA networks f0 fc cf body hfc hcf h50 h1
  refine ⟨⟨?_, ?_⟩, hcarry⟩
  · rintro ⟨a, b, c, d, hpart⟩
    by_cases h50 : 50 < fc
    · rw [construct_wrongRaw hash encA networks f0 fc cf body mc hfc h50] at hpart
      exact absurd hpart (by simp)
    · by_cases h1 : 1 < fc
      · refine ⟨h1, by omega, ?_⟩
        by_contra hmc
        have hmc' : mc = true := by
          cases mc
          · exact absurd rfl hmc
          · rfl
        rw [construct_dispatch hash encA networks f0 fc cf body mc hfc (by omega)
          (Or.inr hmc')] at hpart
        exact dispatchUOS_ne_part hash encA networks (bytesToHex body) a b c d hpart
      · rw [construct_dispatch hash encA networks f0 fc cf body mc hfc (by omega)
          (Or.inl (by omega))] at hpart
        exact absurd hpart (dispatchUOS_ne_part hash encA networks (bytesToHex body) a b c d)
  · rintro ⟨h1, h50, hmc⟩
    exact ⟨some cf, some fc, true, bytesToHex body, hcarry h1 h50 hmc⟩

/-- Witness for C5 (amended) at a concrete three-frame header. -/
theorem c5_partialIff_amended_witness :
    constructDataFromBytes noHash noEncode (mkFrame 0 3 2 [9, 9]) false []
      = .ok (.part (some 2) (some 3) true (bytesToHex [9, 9])) :=
  (c5_partialIff_amended noHash noEncode [] 0 3 2 [9, 9] false (by decide) (by decide)).2
    (by decide) (by decide) rfl

/-! ### Symbolic evaluation of the Substrate branch -/

theorem jsSubstrNeg_nonpos (s : List Char) (start len : Int) (h : len ≤ 0) :
    jsSubstrNeg s start len = [] := by
  simp only [jsSubstrNeg, max_eq_right h, min_eq_left (le_max_right _ _), Int.toNat_zero,
    List.take_zero]

/-- What `substrateDecode` computes once its string slicing is resolved on a
well-formed body: `firstByte`/`secondByte` are the hex pairs of the crypto
and command bytes, `publicKeyAsBytes` the decoded public key, `rawPayload`
the bytes between the public key and the genesis hash (signing payload plus
the 4 specVersion bytes), and `genesisHash` the `0x`-prefixed tail.
`specVersion` is `none` because `substr(-70, -64)` always yields the empty
string, whose `parseInt` is `NaN`. -/
def substrateBody (hash : List Char → List Char) (encAddr : List Nat → Nat → List Char)
    (networks : List (List Char × Nat)) (firstByte secondByte : List Char)
    (publicKeyAsBytes rawPayload : List Nat) (genesisHash : List Char) :
    Except DecodeError ParsedData :=
  let crypto : Option (List Char) :=
    if firstByte = ['0', '0'] then some ed25519Str
    else if firstByte = ['0', '1'] then some sr25519Str
    else none
  let isOversized : Bool := decide (256 < rawPayload.length)
  match List.lookup genesisHash networks with
  | none => .error .substrateUOS
  | some netNum =>
    if secondByte = ['0', '0'] ∨ secondByte = ['0', '2'] then
      let offset := compactOffset rawPayload
      let payload := rawPayload.drop offset
      .ok (.substrate {
        crypto := crypto, specVersion := none, genesisHash := genesisHash,
        action := some signTxStr,
        oversized := some isOversized,
        isHash := some isOversized,
        rawPayload := some rawPayload,
        dataField := some (if isOversized then .str (hash (bytesToHex payload)) else .bytes rawPayload),
        account := some (encAddr publicKeyAsBytes netNum) })
    else if secondByte = ['0', '1'] ∨ secondByte = ['0', '3'] then
      .ok (.substrate {
        crypto := crypto, specVersion := none, genesisHash := genesisHash,
        action := some signDataStr,
        oversized := some false,
        isHash := some (if secondByte = ['0', '1'] then true else false),
        rawPayload := none,
        dataField := some (.str ('0' :: 'x' :: bytesToHex rawPayload)),
        account := some (encAddr publicKeyAsBytes netNum) })
    else
      .ok (.substrate {
        crypto := crypto, specVersion := none, genesisHash := genesisHash,
        action := none, oversized := none, isHash := none,
        rawPayload := none, dataField := none, account := none })

/-- On a complete Substrate body — discriminator `0x53`, crypto byte, command
byte, 32-byte public key, signing payload, 4-byte specVersion, 32-byte
genesis hash — `substrateDecode` equals `substrateBody` at the decoded
slices. -/
theorem substrateDecode_core (hash : List Char → List Char) (encA : List Nat → Nat → List Char)
    (networks : List (List Char × Nat)) (cr cmd : Nat) (pubkey payload spec genesis : List Nat)
    (hpk : pubkey.length = 32) (hpkb : ∀ x ∈ pubkey, x < 256)
    (hpb : ∀ x ∈ payload, x < 256) (hsp : spec.length = 4) (hspb : ∀ x ∈ spec, x < 256)
    (hg : genesis.length = 32) :
    substrateDecode hash encA networks
        (bytesToHex (83 :: cr :: cmd :: (pubkey ++ payload ++ spec ++ genesis)))
      = substrateBody hash encA networks (byteToHex cr) (byteToHex cmd)
          pubkey (payload ++ spec) ('0' :: 'x' :: bytesToHex genesis) := by
  have hT : pubkey ++ payload ++ spec ++ genesis
      = pubkey ++ (payload ++ (spec ++ genesis)) := by
    simp [List.append_assoc]
  rw [hT]
  set R := payload ++ (spec ++ genesis) with hRdef
  have hpklen : (bytesToHex pubkey).length = 64 := by rw [bytesToHex_length, hpk]
  set P := bytesToHex (payload ++ spec) with hPdef
  set G := bytesToHex genesis with hGdef
  have hPlen : P.length = 2 * payload.length + 8 := by
    rw [hPdef, bytesToHex_length, List.length_append, hsp]; omega
  have hGlen : G.length = 64 := by rw [hGdef, bytesToHex_length, hg]
  have hR : bytesToHex R = P ++ G := by
    rw [hRdef, hPdef, hGdef, ← List.append_assoc, bytesToHex_append, bytesToHex_append]
  have h2 : ((bytesToHex (83 :: cr :: cmd :: (pubkey ++ R))).drop 2).take 2 = byteToHex cr := by
    rw [bytesToHex_cons]; rfl
  have h4 : ((bytesToHex (83 :: cr :: cmd :: (pubkey ++ R))).drop 4).take 2 = byteToHex cmd := by
    rw [bytesToHex_cons, bytesToHex_cons]; rfl
  have h6 : ((bytesToHex (83 :: cr :: cmd :: (pubkey ++ R))).drop 6).take 64
      = bytesToHex pubkey := by
    rw [bytesToHex_cons, bytesToHex_cons, bytesToHex_cons]
    show (bytesToHex (pubkey ++ R)).take 64 = bytesToHex pubkey
    rw [bytesToHex_append, ← hpklen, List.take_left]
  have h70 : (bytesToHex (83 :: cr :: cmd :: (pubkey ++ R))).drop 70 = P ++ G := by
    rw [bytesToHex_cons, bytesToHex_cons, bytesToHex_cons]
    show (bytesToHex (pubkey ++ R)).drop 64 = P ++ G
    rw [bytesToHex_append, ← hpklen, List.drop_left, hR]
  have hHElen : ('0' :: 'x' :: (P ++ G)).length = P.length + 66 := by
    simp [List.length_append, hGlen]
  have htake : ('0' :: 'x' :: (P ++ G)).take (('0' :: 'x' :: (P ++ G)).length - 64)
      = '0' :: 'x' :: P := by
    rw [hHElen, show P.length + 66 - 64 = P.length + 1 + 1 from by omega,
      List.take_succ_cons, List.take_succ_cons, List.take_left]
  have hsubTail : jsSubstrTail ('0' :: 'x' :: (P ++ G)) (-64) = G := by
    simp only [jsSubstrTail, hHElen]
    rw [if_pos (by omega : (-64 : Int) < 0)]
    have hmax : max (((P.length + 66 : Nat) : Int) + (-64)) 0 = ((P.length + 2 : Nat) : Int) := by
      rw [max_eq_left (by push_cast; omega)]
      push_cast; omega
    rw [hmax, Int.toNat_natCast,
      show P.length + 2 = P.length + 1 + 1 from by omega,
      List.drop_succ_cons, List.drop_succ_cons, List.drop_left]
  have hspecv : jsParseIntDec (jsSubstrNeg ('0' :: 'x' :: (P ++ G)) (-70) (-64)) = none := by
    rw [jsSubstrNeg_nonpos _ _ _ (by omega)]; rfl
  have hpub : hexToU8a ('0' :: 'x' :: bytesToHex pubkey) = pubkey :=
    hexToU8a_bytesToHex pubkey hpkb
  have hraw : hexToU8a ('0' :: 'x' :: P) = payload ++ spec := by
    rw [hPdef]
    refine hexToU8a_bytesToHex _ ?_
    intro x hx
    rcases List.mem_append.mp hx with h | h
    · exact hpb x h
    · exact hspb x h
  simp only [substrateDecode, substrateBody, h2, h4, h6, h70, htake, hsubTail, hspecv,
    hpub, hraw]

theorem dispatch_substrate (hash : List Char → List Char) (encA : List Nat → Nat → List Char)
    (networks : List (List Char × Nat)) (rest : List Nat) :
    dispatchUOS hash encA networks (bytesToHex (83 :: rest))
      = substrateDecode hash encA networks (bytesToHex (83 :: rest)) := by
  have hz : (bytesToHex (83 :: rest)).take 2 = ['5', '3'] := by rw [bytesToHex_cons]; rfl
  simp [dispatchUOS, hz]

theorem dispatch_eth (hash : List Char → List Char) (encA : List Nat → Nat → List Char)
    (networks : List (List Char × Nat)) (rest : List Nat) :
    dispatchUOS hash encA networks (bytesToHex (69 :: rest))
      = ethDecode (bytesToHex (69 :: rest)) := by
  have hz : (bytesToHex (69 :: rest)).take 2 = ['4', '5'] := by rw [bytesToHex_cons]; rfl
  simp [dispatchUOS, hz]

/-- Concrete 32-byte public key used in concrete-input theorems. -/
def pubkeyC : List Nat := List.replicate 32 7

/-- Concrete 32-byte genesis hash used in concrete-input theorems. -/
def genesisC : List Nat := List.replicate 32 1

/-- Concrete networks table containing `genesisC` with address-format 2. -/
def networksC : List (List Char × Nat) := [('0' :: 'x' :: bytesToHex genesisC, 2)]

/-- C3: a complete Substrate payload (discriminator `0x53`, full body layout)
whose genesis-hash tail is not a key of the networks table fails, and with
one determinate error: the Substrate-branch failure `substrateUOS`, which
for such inputs is exactly the unknown-network condition (the only failure
the branch can reach there) — never `wrongRaw`, `malformedAction`,
`notFormatted`, and never success.  In the source the network miss is logged
as `ERROR_NO_NETWORK` and surfaces through the inner `catch` as the
Substrate-decode error. -/
theorem c3_unknownNetwork (hash : List Char → List Char) (encA : List Nat → Nat → List Char)
    (networks : List (List Char × Nat)) (f0 fc cf cr cmd : Nat)
    (pubkey payload spec genesis : List Nat) (mc : Bool)
    (hfc : fc < 65536) (h50 : fc ≤ 50) (hmp : fc ≤ 1 ∨ mc = true)
    (hpk : pubkey.length = 32) (hpkb : ∀ x ∈ pubkey, x < 256)
    (hpb : ∀ x ∈ payload, x < 256) (hsp : spec.length = 4) (hspb : ∀ x ∈ spec, x < 256)
    (hg : genesis.length = 32)
    (hnet : List.lookup ('0' :: 'x' :: bytesToHex genesis) networks = none) :
    constructDataFromBytes hash encA
        (mkFrame f0 fc cf (83 :: cr :: cmd :: (pubkey ++ payload ++ spec ++ genesis))) mc networks
      = .error .substrateUOS := by
  rw [construct_dispatch hash encA networks f0 fc cf _ mc hfc h50 hmp,
    dispatch_substrate,
    substrateDecode_core hash encA networks cr cmd pubkey payload spec genesis
      hpk hpkb hpb hsp hspb hg]
  simp only [substrateBody, hnet]

/-- Witness for C3: a complete single-frame Substrate payload against an
empty networks table. -/
theorem c3_unknownNetwork_witness :
    constructDataFromBytes noHash noEncode
        (mkFrame 0 1 0 (83 :: 1 :: 0 :: (pubkeyC ++ [170] ++ [0, 0, 0, 1] ++ genesisC))) true []
      = .error .substrateUOS :=
  c3_unknownNetwork noHash noEncode [] 0 1 0 1 0 pubkeyC [170] [0, 0, 0, 1] genesisC true
    (by decide) (by decide) (Or.inr rfl) (by decide) (by decide) (by decide) (by decide)
    (by decide) (by decide) rfl

/-- Counterexample to C2 as stated: a complete Substrate payload with a
signing payload of exactly 256 bytes and command `SIGN_IMMORTAL` decodes with
`oversized = true`, although the claim says 256 bytes is not oversized.  The
source classifies on `rawPayload`, which is the 256 payload bytes plus the 4
specVersion bytes (its `hexPayload` slice drops only the 64 genesis-hash hex
characters). -/
theorem c2_oversized_counterexample :
    (List.replicate 256 (0 : Nat)).length = 256 ∧
    resultOversized (constructDataFromBytes noHash noEncode
        (mkFrame 0 1 0
          (83 :: 1 :: 2 :: (pubkeyC ++ List.replicate 256 0 ++ [0, 0, 0, 1] ++ genesisC)))
        true networksC)
      = some (some true) := by
  constructor
  · simp
  · rfl

/-- C2 (amended): for a complete Substrate payload with command `SIGN_MORTAL`
or `SIGN_IMMORTAL` and a known genesis hash, `oversized` (and `isHash`)
is true if and only if the bytes between the public key and the genesis hash
— the signing payload plus the 4-byte specVersion field — number strictly
more than 256; equivalently, a signing payload of 253 bytes is already
oversized and one of 252 bytes is not. -/
theorem c2_oversized_amended (hash : List Char → List Char) (encA : List Nat → Nat → List Char)
    (networks : List (List Char × Nat)) (f0 fc cf cr cmd : Nat)
    (pubkey payload spec genesis : List Nat) (mc : Bool) (p : Nat)
    (hfc : fc < 65536) (h50 : fc ≤ 50) (hmp : fc ≤ 1 ∨ mc = true)
    (hcmd : cmd = 0 ∨ cmd = 2)
    (hpk : pubkey.length = 32) (hpkb : ∀ x ∈ pubkey, x < 256)
    (hpb : ∀ x ∈ payload, x < 256) (hsp : spec.length = 4) (hspb : ∀ x ∈ spec, x < 256)
    (hg : genesis.length = 32)
    (hnet : List.lookup ('0' :: 'x' :: bytesToHex genesis) networks = some p) :
    ∃ d, constructDataFromBytes hash encA
        (mkFrame f0 fc cf (83 :: cr :: cmd :: (pubkey ++ payload ++ spec ++ genesis))) mc networks
        = .ok (.substrate d) ∧
      d.oversized = some (decide (256 < payload.length + 4)) ∧
      d.isHash = some (decide (256 < payload.length + 4)) ∧
      d.action = some signTxStr := by
  rw [construct_dispatch hash encA networks f0 fc cf _ mc hfc h50 hmp,
    dispatch_substrate,
    substrateDecode_core hash encA networks cr cmd pubkey payload spec genesis
      hpk hpkb hpb hsp hspb hg]
  have hlen : (payload ++ spec).length = payload.length + 4 := by
    rw [List.length_append, hsp]
  rcases hcmd with rfl | rfl
  · simp only [substrateBody, hnet, if_pos (Or.inl (by decide : byteToHex 0 = ['0', '0']))]
    exact ⟨_, rfl, by simp [hlen], by simp [hlen], rfl⟩
  · simp only [substrateBody, hnet,
      if_pos (Or.inr (by decide : byteToHex 2 = ['0', '2']))]
    exact ⟨_, rfl, by simp [hlen], by simp [hlen], rfl⟩

/-- Witness for C2 (amended) at a 252-byte signing payload, which is not
oversized. -/
theorem c2_oversized_amended_witness :
    resultOversized (constructDataFromBytes noHash noEncode
        (mkFrame 0 1 0
          (83 :: 1 :: 0 :: (pubkeyC ++ List.replicate 252 0 ++ [0, 0, 0, 1] ++ genesisC)))
        true networksC)
      = some (some false) := by
  obtain ⟨d, hd, hov, -, -⟩ :=
    c2_oversized_amended noHash noEncode networksC 0 1 0 1 0 pubkeyC
      (List.replicate 252 0) [0, 0, 0, 1] genesisC true 2
      (by decide) (by decide) (Or.inr rfl) (Or.inl rfl)
      (by decide) (by decide) (by decide) (by decide) (by decide) (by decide) rfl
  rw [hd]
  simp [resultOversized, hov]

/-- Counterexample to C6 as stated: a complete Substrate payload with
command `SIGN_MSG`, signing payload `[0xaa]` and specVersion bytes
`[0,0,0,1]` decodes with `data = "0xaa00000001"` — the hex rendering of the
signing payload *plus the 4 specVersion bytes* — not `"0xaa"`, the hex
rendering of the signing payload alone that the claim requires. -/
theorem c6_signData_counterexample :
    resultDataField (constructDataFromBytes noHash noEncode
        (mkFrame 0 1 0 (83 :: 1 :: 3 :: (pubkeyC ++ [170] ++ [0, 0, 0, 1] ++ genesisC)))
        true networksC)
      = some (some (.str "0xaa00000001".toList)) ∧
    some (some (DataField.str "0xaa00000001".toList))
      ≠ some (some (DataField.str "0xaa".toList)) := by
  exact ⟨rfl, by decide⟩

/-- C6 (amended): for a complete Substrate payload with command `SIGN_HASH`
or `SIGN_MSG` and a known genesis hash, the decode succeeds with
`action = signData`, `oversized = false` whatever the payload length,
`isHash = true` exactly for `SIGN_HASH`, and `data` equal to the hex string
of the signing payload *followed by the 4 specVersion bytes* (everything
between the public key and the genesis hash), `0x`-prefixed, unhashed and
not compact-stripped. -/
theorem c6_signData_amended (hash : List Char → List Char) (encA : List Nat → Nat → List Char)
    (networks : List (List Char × Nat)) (f0 fc cf cr cmd : Nat)
    (pubkey payload spec genesis : List Nat) (mc : Bool) (p : Nat)
    (hfc : fc < 65536) (h50 : fc ≤ 50) (hmp : fc ≤ 1 ∨ mc = true)
    (hcmd : cmd = 1 ∨ cmd = 3)
    (hpk : pubkey.length = 32) (hpkb : ∀ x ∈ pubkey, x < 256)
    (hpb : ∀ x ∈ payload, x < 256) (hsp : spec.length = 4) (hspb : ∀ x ∈ spec, x < 256)
    (hg : genesis.length = 32)
    (hnet : List.lookup ('0' :: 'x' :: bytesToHex genesis) networks = some p) :
    ∃ d, constructDataFromBytes hash encA
        (mkFrame f0 fc cf (83 :: cr :: cmd :: (pubkey ++ payload ++ spec ++ genesis))) mc networks
        = .ok (.substrate d) ∧
      d.action = some signDataStr ∧
      d.oversized = some false ∧
      d.isHash = some (decide (cmd = 1)) ∧
      d.dataField = some (.str ('0' :: 'x' :: bytesToHex (payload ++ spec))) := by
  rw [construct_dispatch hash encA networks f0 fc cf _ mc hfc h50 hmp,
    dispatch_substrate,
    substrateDecode_core hash encA networks cr cmd pubkey payload spec genesis
      hpk hpkb hpb hsp hspb hg]
  rcases hcmd with rfl | rfl
  · simp only [substrateBody, hnet,
      if_neg (by decide : ¬(byteToHex 1 = ['0', '0'] ∨ byteToHex 1 = ['0', '2'])),
      if_pos (Or.inl (by decide : byteToHex 1 = ['0', '1']))]
    exact ⟨_, rfl, rfl, rfl, by simp [if_pos (by decide : byteToHex 1 = ['0', '1'])], rfl⟩
  · simp only [substrateBody, hnet,
      if_neg (by decide : ¬(byteToHex 3 = ['0', '0'] ∨ byteToHex 3 = ['0', '2'])),
      if_pos (Or.inr (by decide : byteToHex 3 = ['0', '3']))]
    exact ⟨_, rfl, rfl, rfl, by simp [if_neg (by decide : ¬byteToHex 3 = ['0', '1'])], rfl⟩

/-- Witness for C6 (amended) at command `SIGN_HASH` over a one-byte signing
payload. -/
theorem c6_signData_amended_witness :
    resultDataField (constructDataFromBytes noHash noEncode
        (mkFrame 0 1 0 (83 :: 1 :: 1 :: (pubkeyC ++ [170] ++ [0, 0, 0, 1] ++ genesisC)))
        true networksC)
      = some (some (.str ('0' :: 'x' :: bytesToHex ([170] ++ [0, 0, 0, 1])))) := by
  obtain ⟨d, hd, -, -, -, hdata⟩ :=
    c6_signData_amended noHash noEncode networksC 0 1 0 1 1 pubkeyC [170] [0, 0, 0, 1] genesisC
      true 2 (by decide) (by decide) (Or.inr rfl) (Or.inl rfl)
      (by decide) (by decide) (by decide) (by decide) (by decide) (by decide) rfl
  rw [hd]
  simp [resultDataField, hdata]

/-- C7 is a code bug: the source computes
`parseInt(hexEncodedData.substr(-70, -64), 10)`; a negative `length`
argument makes `substr` return the empty string, whose `parseInt` is `NaN`.
So `specVersion` is never the integer encoded by the 4 bytes preceding the
genesis hash: here those bytes are `[0,0,0,1]` (encoding 1) yet the decoded
`specVersion` is `NaN` (`none`). -/
theorem c7_specVersionNaN :
    resultSpecVersion (constructDataFromBytes noHash noEncode
        (mkFrame 0 1 0 (83 :: 1 :: 3 :: (pubkeyC ++ [170] ++ [0, 0, 0, 1] ++ genesisC)))
        true networksC)
      = some none ∧
    (some (none : Option Nat) ≠ some (some 1)) := by
  exact ⟨rfl, by decide⟩

/-- C8: for a complete Ethereum payload (discriminator `0x45`, action byte,
22-byte address, remaining data), an action byte of `0x00` or `0x01` decodes
successfully with `action = signData`, and any other action byte fails with
the MalformedAction error. -/
theorem c8_ethAction (hash : List Char → List Char) (encA : List Nat → Nat → List Char)
    (networks : List (List Char × Nat)) (f0 fc cf a1 : Nat) (addr rest : List Nat) (mc : Bool)
    (hfc : fc < 65536) (h50 : fc ≤ 50) (hmp : fc ≤ 1 ∨ mc = true)
    (_haddr : addr.length = 22) (ha1 : a1 < 256) :
    ((a1 = 0 ∨ a1 = 1) →
      ∃ e, constructDataFromBytes hash encA
          (mkFrame f0 fc cf (69 :: a1 :: (addr ++ rest))) mc networks
          = .ok (.ethereum e) ∧ e.action = some signDataStr) ∧
    (a1 ≠ 0 → a1 ≠ 1 →
      constructDataFromBytes hash encA
          (mkFrame f0 fc cf (69 :: a1 :: (addr ++ rest))) mc networks
        = .error .malformedAction) := by
  rw [construct_dispatch hash encA networks f0 fc cf _ mc hfc h50 hmp, dispatch_eth]
  have hfb : ((bytesToHex (69 :: a1 :: (addr ++ rest))).drop 2).take 2 = byteToHex a1 := by
    rw [bytesToHex_cons]; rfl
  simp only [ethDecode, hfb]
  constructor
  · rintro (rfl | rfl)
    · simp only [if_pos (Or.inl (by decide : byteToHex 0 = ['0', '0'])), if_pos rfl]
      exact ⟨_, rfl, rfl⟩
    · simp only [if_pos (Or.inr (by decide : byteToHex 1 = ['0', '1'])), if_pos rfl]
      exact ⟨_, rfl, rfl⟩
  · intro h0 h1
    have hcond : ¬(byteToHex a1 = ['0', '0'] ∨ byteToHex a1 = ['0', '1']) := by
      rintro (h | h)
      · exact h0 (byteToHex_inj ha1 (by decide) (h.trans (by decide)))
      · exact h1 (byteToHex_inj ha1 (by decide) (h.trans (by decide)))
    have hcond2 : ¬(byteToHex a1 = ['0', '1']) := fun h =>
      h1 (byteToHex_inj ha1 (by decide) (h.trans (by decide)))
    simp only [if_neg hcond, if_neg hcond2]
    rw [if_neg (by simp [signDataStr]), if_neg (by simp [signTxStr])]

/-- Witness for C8 at the unrecognized action byte `0x07`. -/
theorem c8_ethAction_witness :
    constructDataFromBytes noHash noEncode
        (mkFrame 0 1 0 (69 :: 7 :: (List.replicate 22 171 ++ [222, 173]))) true []
      = .error .malformedAction :=
  (c8_ethAction noHash noEncode [] 0 1 0 7 (List.replicate 22 171) [222, 173] true
    (by decide) (by decide) (Or.inr rfl) (by decide) (by decide)).2 (by decide) (by decide)

/-- Concrete 22-byte Ethereum address field used for C9. -/
def addrC : List Nat := List.replicate 22 171

/-- C9 is a code bug: for a complete Ethereum payload with action `0x00`,
address bytes `0xab … ab` and remaining data bytes `[0xde, 0xad]`, the
returned `account` is indeed the hex rendering of bytes 2..23, but the data
field (`data.data.rlp`) holds only `uosAfterFrames[13]` — the single
character `'b'`, which sits *inside the address field's* hex — instead of
the remaining bytes after the address, whose rendering would be `"dead"`. -/
theorem c9_ethDataSingleChar :
    constructDataFromBytes noHash noEncode
        (mkFrame 0 1 0 (69 :: 0 :: (addrC ++ [222, 173]))) true []
      = .ok (.ethereum {
          action := some signDataStr, account := (bytesToHex addrC),
          rlp := some 'b', dataField := none }) ∧
    bytesToHex [222, 173] = "dead".toList := by
  exact ⟨rfl, by decide⟩

end Stylo
